import Mathlib

/-!
Verification of `src/userguide/c/rng/stdin2testu01.c` from apache/commons-math:
a utility adapting binary words on standard input to the generator interface
of the TestU01 library, then dispatching one of three test batteries.

The shallow embedding below translates the C source:
  - `StdinReader_state` embeds the C struct of the same name, extended with
    the position of the underlying stdin stream (`pos`), which in C is state
    of the process (the file offset of stdin) rather than of the struct.
    The stream itself is modelled as an infinite sequence `stream : Nat → Nat`
    of `unsigned long` units, one unit per `fread` slot; the C buffer elements
    are `unsigned long`, so entries are arbitrary naturals (not forced < 2^32).
  - `nextInt` embeds `nextInt`: refill when `index >= BUFFER_LENGTH`, then
    read `buffer[index]` through the `uint32_t` narrowing (mod 2^32),
    increment the index, and return the narrowed value (the return type
    `unsigned long` preserves the `uint32_t` value exactly).
  - `nextDouble` embeds `nextDouble`: the C expression
    `nextInt(par, sta) / 4294967296.0` divides a value below 2^32 by 2^32,
    which is exact in IEEE double arithmetic (at most 32 significant bits),
    so the result is modelled as the exact rational.
  - `dummy` embeds `dummy`: prints "N/A" (modelled as the returned string)
    and does not touch the state.
  - `createStdinReader` embeds `createStdinReader`: the malloc-ed buffer is
    uninitialized, hence a parameter `initBuf`; `index` starts at
    `BUFFER_LENGTH` and the stream offset at 0.
  - `mainTrace` embeds `main` as the sequence of observable events it
    performs: creating the adapter (which allocates the state and name and
    reopens stdin in binary mode), printing to stdout, running a battery,
    destroying the adapter, and exiting with a status code.  In the C code
    `spec = argv[1]` is read before the `argc` check but only used in the
    branches where `argc >= 2`, so the model evaluates it lazily.
-/

def BUFFER_LENGTH : Nat := 256

/-- 2^32, the modulus of the `uint32_t` narrowing in `nextInt`. -/
def UINT32_MOD : Nat := 4294967296

/-- The C struct `StdinReader_state` (buffer of `unsigned long` plus cursor),
together with the stdin stream offset `pos` (in `unsigned long` units), which
in C is process state. Only `buffer i` for `i < BUFFER_LENGTH` is ever read. -/
structure StdinReader_state where
  buffer : Nat → Nat
  index : Nat
  pos : Nat

/-- The refill performed by `nextInt` when the buffer is exhausted:
`fread(state->buffer, sizeof(unsigned long), BUFFER_LENGTH, stdin)` followed by
`state->index = 0`. It overwrites the whole buffer with the next
`BUFFER_LENGTH` stream units and advances the stream offset. -/
def refill (stream : Nat → Nat) (s : StdinReader_state) : StdinReader_state :=
  { buffer := fun i => stream (s.pos + i)
    index := 0
    pos := s.pos + BUFFER_LENGTH }

/-- The C function `nextInt`: refill if `index >= BUFFER_LENGTH`; then
`uint32_t random = state->buffer[state->index]` (narrowing mod 2^32),
`++state->index`, `return random`. Returns the value and the new state. -/
def nextInt (stream : Nat → Nat) (s : StdinReader_state) : Nat × StdinReader_state :=
  let s1 := if BUFFER_LENGTH ≤ s.index then refill stream s else s
  let random := s1.buffer s1.index % UINT32_MOD
  (random, { s1 with index := s1.index + 1 })

/-- The C function `nextDouble`: `nextInt(par, sta) / 4294967296.0`, exact in
double precision since the numerator is below 2^32; modelled as the exact
rational value. -/
def nextDouble (stream : Nat → Nat) (s : StdinReader_state) : ℚ × StdinReader_state :=
  let r := nextInt stream s
  ((r.1 : ℚ) / 4294967296, r.2)

/-- The C function `dummy`: prints "N/A" (modelled as the returned string) and
leaves the state untouched. -/
def dummy (s : StdinReader_state) : String × StdinReader_state :=
  ("N/A", s)

/-- The state part of `createStdinReader`: a freshly malloc-ed (hence
arbitrary, `initBuf`) buffer, `state->index = BUFFER_LENGTH`, stream offset 0. -/
def createStdinReader (initBuf : Nat → Nat) : StdinReader_state :=
  { buffer := initBuf
    index := BUFFER_LENGTH
    pos := 0 }

/-- The reader state after `n` calls to `nextInt` on a fresh adapter. -/
def stateAfter (stream initBuf : Nat → Nat) : Nat → StdinReader_state
  | 0 => createStdinReader initBuf
  | n + 1 => (nextInt stream (stateAfter stream initBuf n)).2

/-- The value returned by the `(n+1)`-th call to `nextInt` on a fresh adapter
(0-indexed: `valueAt … n` is produced by call number `n+1`). -/
def valueAt (stream initBuf : Nat → Nat) (n : Nat) : Nat :=
  (nextInt stream (stateAfter stream initBuf n)).1

/-- Number of refills a state has performed: each refill advances the stream
offset by exactly `BUFFER_LENGTH` units and nothing else moves it. -/
def refillCount (s : StdinReader_state) : Nat :=
  s.pos / BUFFER_LENGTH

/-- The string `TU_S` of the C source. -/
def TU_S : String := "SmallCrush"

/-- The string `TU_C` of the C source. -/
def TU_C : String := "Crush"

/-- The string `TU_B` of the C source. -/
def TU_B : String := "BigCrush"

/-- The three batteries dispatched by `main`. -/
inductive Battery
  | SmallCrush
  | Crush
  | BigCrush
  deriving DecidableEq

/-- Observable events of `main`, in program order. -/
inductive Event
  | create
  | print (text : String)
  | runBattery (b : Battery)
  | destroy
  | exitWith (code : Nat)
  deriving DecidableEq

/-- Whether an event is a battery invocation. -/
def isBatteryEvent : Event → Bool
  | Event.runBattery _ => true
  | _ => false

/-- The usage message printed by `main` when `argc < 2`, with the `printf`
format `"[ERROR] Specify test suite: '%s', '%s' or '%s'\n"` instantiated at
`TU_S`, `TU_C`, `TU_B`. -/
def usageMessage : String :=
  "[ERROR] Specify test suite: 'SmallCrush', 'Crush' or 'BigCrush'\n"

/-- The message printed by `main` for an unrecognized suite name, with the
`printf` format `"[ERROR] Unknown specification: '%s'\n"` instantiated at the
offending argument. -/
def unknownMessage (spec : String) : String :=
  "[ERROR] Unknown specification: '" ++ spec ++ "'\n"

/-- The C function `main` as the sequence of observable events it performs.
`argv` includes the program name, so `argc = argv.length` and the suite
specification is `argv[1]`. -/
def mainTrace (argv : List String) : List Event :=
  Event.create ::
    (if argv.length < 2 then
      [Event.print usageMessage, Event.exitWith 1]
    else
      let spec := argv.getD 1 ""
      if spec = TU_S then
        [Event.runBattery Battery.SmallCrush, Event.destroy, Event.exitWith 0]
      else if spec = TU_C then
        [Event.runBattery Battery.Crush, Event.destroy, Event.exitWith 0]
      else if spec = TU_B then
        [Event.runBattery Battery.BigCrush, Event.destroy, Event.exitWith 0]
      else
        [Event.print (unknownMessage spec), Event.exitWith 1])

/-- Closed form of the state after `n + 1` calls on a fresh adapter: the
buffer holds the block of the last refill, the cursor points one past the
word just returned, and the stream offset sits at the end of that block. -/
theorem stateAfter_succ_eq (stream initBuf : Nat → Nat) (n : Nat) :
    stateAfter stream initBuf (n + 1) =
      { buffer := fun i => stream (BUFFER_LENGTH * (n / BUFFER_LENGTH) + i)
        index := n % BUFFER_LENGTH + 1
        pos := BUFFER_LENGTH * (n / BUFFER_LENGTH) + BUFFER_LENGTH } := by
  induction n with
  | zero =>
      simp [stateAfter, createStdinReader, nextInt, refill, BUFFER_LENGTH]
  | succ n ih =>
      have step : stateAfter stream initBuf (n + 1 + 1)
          = (nextInt stream (stateAfter stream initBuf (n + 1))).2 := rfl
      rw [step, ih]
      simp only [nextInt, refill, BUFFER_LENGTH, UINT32_MOD]
      by_cases h : 256 ≤ n % 256 + 1
      · simp only [if_pos h, StdinReader_state.mk.injEq]
        refine ⟨funext fun i => congrArg stream (by omega), by omega, by omega⟩
      · simp only [if_neg h, StdinReader_state.mk.injEq]
        refine ⟨funext fun i => congrArg stream (by omega), by omega, by omega⟩

/-- The `(n+1)`-th call to `nextInt` on a fresh adapter returns stream unit
`n` narrowed modulo 2^32, independently of where refill boundaries fall. -/
theorem valueAt_eq (stream initBuf : Nat → Nat) (n : Nat) :
    valueAt stream initBuf n = stream n % UINT32_MOD := by
  cases n with
  | zero =>
      simp [valueAt, stateAfter, createStdinReader, nextInt, refill, BUFFER_LENGTH]
  | succ n =>
      rw [valueAt, stateAfter_succ_eq]
      simp only [nextInt, refill, BUFFER_LENGTH, UINT32_MOD]
      by_cases h : 256 ≤ n % 256 + 1
      · simp only [if_pos h, Nat.add_zero]
        have h2 : 256 * (n / 256) + 256 + 0 = n + 1 := by omega
        simp only [h2]
      · simp only [if_neg h]
        have h2 : 256 * (n / 256) + (n % 256 + 1) = n + 1 := by omega
        simp only [h2]

/-- The value produced by any single `nextInt` call is below 2^32: it passes
through the `uint32_t random` narrowing. -/
theorem nextInt_fst_lt (stream : Nat → Nat) (s : StdinReader_state) :
    (nextInt stream s).1 < UINT32_MOD :=
  Nat.mod_lt _ (by decide)

/-- The rational value of `nextDouble` is nonnegative. -/
theorem nextDouble_fst_nonneg (stream : Nat → Nat) (s : StdinReader_state) :
    0 ≤ (nextDouble stream s).1 :=
  div_nonneg (Nat.cast_nonneg _) (by norm_num)

/-- The rational value of `nextDouble` is below 1, because the numerator is
below 2^32 = 4294967296. -/
theorem nextDouble_fst_lt_one (stream : Nat → Nat) (s : StdinReader_state) :
    (nextDouble stream s).1 < 1 := by
  have h1 : (nextInt stream s).1 < 4294967296 := nextInt_fst_lt stream s
  have h2 : ((nextInt stream s).1 : ℚ) < 4294967296 := by exact_mod_cast h1
  have h3 : (nextDouble stream s).1 = ((nextInt stream s).1 : ℚ) / 4294967296 := rfl
  rw [h3, div_lt_one (by norm_num)]
  exact h2

/-- C1: for every sequence of 32-bit words supplied on the input stream,
repeated `nextInt` calls on a fresh adapter return exactly those words in
stream order; the placement of block-refill boundaries is not observable. -/
theorem next_integer_stream_order (stream initBuf : Nat → Nat) (n : Nat)
    (h : stream n < UINT32_MOD) :
    valueAt stream initBuf n = stream n := by
  rw [valueAt_eq]
  exact Nat.mod_eq_of_lt h

/-- Witness for C1 at the identity stream and position 300, which lies past
the first refill boundary (256). -/
theorem next_integer_stream_order_witness :
    (300 : Nat) < UINT32_MOD ∧ valueAt (fun k => k) (fun _ => 0) 300 = 300 :=
  ⟨by decide, next_integer_stream_order (fun k => k) (fun _ => 0) 300 (by decide)⟩

/-- C2: `nextDouble` returns exactly `nextInt / 2^32`, both calls starting
from the same state land in the same state (one word consumed, not two), and
the value lies in the half-open interval [0, 1). -/
theorem next_double_is_next_integer_div_2_32 (stream : Nat → Nat) (s : StdinReader_state) :
    (nextDouble stream s).1 = ((nextInt stream s).1 : ℚ) / 4294967296 ∧
    (nextDouble stream s).2 = (nextInt stream s).2 ∧
    0 ≤ (nextDouble stream s).1 ∧ (nextDouble stream s).1 < 1 :=
  ⟨rfl, rfl, nextDouble_fst_nonneg stream s, nextDouble_fst_lt_one stream s⟩

/-- C8: `dummy` (the describe callback) emits exactly "N/A" and leaves the
buffer, the cursor and the stream offset unchanged. -/
theorem dummy_emits_NA_and_preserves_state (s : StdinReader_state) :
    (dummy s).1 = "N/A" ∧ (dummy s).2.buffer = s.buffer ∧
    (dummy s).2.index = s.index ∧ (dummy s).2.pos = s.pos :=
  ⟨rfl, rfl, rfl, rfl⟩

/-- C9: the value `nextInt` returns is the selected buffer element reduced
modulo 2^32 by the `uint32_t` narrowing, although buffer slots hold full
`unsigned long` values; hence every returned value is below 2^32, which is
what keeps `nextDouble` strictly below 1. -/
theorem nextInt_uint32_narrowing (stream initBuf : Nat → Nat)
    (s : StdinReader_state) (n : Nat) :
    (nextInt stream s).1 =
      (if BUFFER_LENGTH ≤ s.index then refill stream s else s).buffer
        (if BUFFER_LENGTH ≤ s.index then refill stream s else s).index
        % UINT32_MOD ∧
    (nextInt stream s).1 < UINT32_MOD ∧
    valueAt stream initBuf n < UINT32_MOD ∧
    (nextDouble stream s).1 < 1 := by
  refine ⟨rfl, nextInt_fst_lt stream s, ?_, nextDouble_fst_lt_one stream s⟩
  rw [valueAt_eq]
  exact Nat.mod_lt _ (by decide)

/-- C6: the invariant `index ≤ BUFFER_LENGTH` holds after creation and is
preserved by `nextInt` and `nextDouble`; when the cursor sits at capacity the
next access refills first — the buffer is replaced wholesale by the next
stream block, the cursor is reset to 0 (and then advanced to 1 by the read),
and the returned value comes from slot 0 of the fresh block. -/
theorem cursor_le_capacity_invariant (stream initBuf : Nat → Nat)
    (s : StdinReader_state) (hs : s.index ≤ BUFFER_LENGTH) :
    (createStdinReader initBuf).index ≤ BUFFER_LENGTH ∧
    (nextInt stream s).2.index ≤ BUFFER_LENGTH ∧
    (nextDouble stream s).2.index ≤ BUFFER_LENGTH ∧
    (s.index = BUFFER_LENGTH →
      (nextInt stream s).2 =
        { buffer := fun i => stream (s.pos + i)
          index := 1
          pos := s.pos + BUFFER_LENGTH } ∧
      (nextInt stream s).1 = stream s.pos % UINT32_MOD) := by
  have hnext : (nextInt stream s).2.index ≤ BUFFER_LENGTH := by
    by_cases h : BUFFER_LENGTH ≤ s.index
    · have h1 : (nextInt stream s).2.index = 1 := by
        simp [nextInt, refill, h]
      rw [h1]
      simp [BUFFER_LENGTH]
    · have h1 : (nextInt stream s).2.index = s.index + 1 := by
        simp [nextInt, h]
      omega
  refine ⟨le_refl _, hnext, hnext, fun he => ?_⟩
  have hge : BUFFER_LENGTH ≤ s.index := le_of_eq he.symm
  constructor
  · simp [nextInt, if_pos hge, refill]
  · simp [nextInt, if_pos hge, refill]

/-- Witness for C6 at a concrete full state (cursor at capacity). -/
theorem cursor_le_capacity_invariant_witness :
    (⟨fun _ => 5, 256, 0⟩ : StdinReader_state).index ≤ BUFFER_LENGTH ∧
    ((createStdinReader fun _ => 5).index ≤ BUFFER_LENGTH ∧
     (nextInt (fun k => k) ⟨fun _ => 5, 256, 0⟩).2.index ≤ BUFFER_LENGTH ∧
     (nextDouble (fun k => k) ⟨fun _ => 5, 256, 0⟩).2.index ≤ BUFFER_LENGTH ∧
     ((⟨fun _ => 5, 256, 0⟩ : StdinReader_state).index = BUFFER_LENGTH →
       (nextInt (fun k => k) ⟨fun _ => 5, 256, 0⟩).2 =
         { buffer := fun i => (0 : Nat) + i
           index := 1
           pos := 0 + BUFFER_LENGTH } ∧
       (nextInt (fun k => k) ⟨fun _ => 5, 256, 0⟩).1 = 0 % UINT32_MOD)) :=
  ⟨by decide,
    cursor_le_capacity_invariant (fun k => k) (fun _ => 5) ⟨fun _ => 5, 256, 0⟩ (by decide)⟩

/-- Each refill advances the stream offset by one block, so the refill count
of the state after `n + 1` calls on a fresh adapter is `n / BUFFER_LENGTH + 1`. -/
theorem refillCount_stateAfter (stream initBuf : Nat → Nat) (n : Nat) :
    refillCount (stateAfter stream initBuf (n + 1)) = n / BUFFER_LENGTH + 1 := by
  rw [stateAfter_succ_eq]
  simp only [refillCount, BUFFER_LENGTH]
  omega

/-- C7: creation sets the cursor to capacity, so the very first access
refills; the first `BUFFER_LENGTH` calls perform exactly one refill in total,
and call number `BUFFER_LENGTH + 1` performs the second. -/
theorem create_forces_refill_counting (stream initBuf : Nat → Nat) :
    (createStdinReader initBuf).index = BUFFER_LENGTH ∧
    refillCount (createStdinReader initBuf) = 0 ∧
    refillCount (stateAfter stream initBuf 1) = 1 ∧
    refillCount (stateAfter stream initBuf BUFFER_LENGTH) = 1 ∧
    refillCount (stateAfter stream initBuf (BUFFER_LENGTH + 1)) = 2 :=
  ⟨rfl, by simp [refillCount, createStdinReader],
    refillCount_stateAfter stream initBuf 0,
    refillCount_stateAfter stream initBuf 255,
    refillCount_stateAfter stream initBuf 256⟩

/-- C3: an exact (case-sensitive) match of `argv[1]` with one of the three
suite names runs exactly that battery and no other, then destroys the adapter
and exits with status 0. -/
theorem dispatch_exact_match (argv : List String) (h2 : 2 ≤ argv.length) :
    (argv.getD 1 "" = TU_S →
      mainTrace argv =
        [Event.create, Event.runBattery Battery.SmallCrush, Event.destroy, Event.exitWith 0]) ∧
    (argv.getD 1 "" = TU_C →
      mainTrace argv =
        [Event.create, Event.runBattery Battery.Crush, Event.destroy, Event.exitWith 0]) ∧
    (argv.getD 1 "" = TU_B →
      mainTrace argv =
        [Event.create, Event.runBattery Battery.BigCrush, Event.destroy, Event.exitWith 0]) := by
  have hlen : ¬ argv.length < 2 := by omega
  have hCS : (TU_C = TU_S) = False := by simp [TU_C, TU_S]
  have hBS : (TU_B = TU_S) = False := by simp [TU_B, TU_S]
  have hBC : (TU_B = TU_C) = False := by simp [TU_B, TU_C]
  refine ⟨fun h => ?_, fun h => ?_, fun h => ?_⟩ <;>
    (simp only [List.getD_eq_getElem?_getD] at h
     simp [mainTrace, hlen, h, hCS, hBS, hBC])

/-- Witness for C3 with the "Crush" suite selected. -/
theorem dispatch_exact_match_witness :
    2 ≤ (["stdin2testu01", "Crush"] : List String).length ∧
    (((["stdin2testu01", "Crush"] : List String).getD 1 "" = TU_S →
      mainTrace ["stdin2testu01", "Crush"] =
        [Event.create, Event.runBattery Battery.SmallCrush, Event.destroy, Event.exitWith 0]) ∧
     ((["stdin2testu01", "Crush"] : List String).getD 1 "" = TU_C →
      mainTrace ["stdin2testu01", "Crush"] =
        [Event.create, Event.runBattery Battery.Crush, Event.destroy, Event.exitWith 0]) ∧
     ((["stdin2testu01", "Crush"] : List String).getD 1 "" = TU_B →
      mainTrace ["stdin2testu01", "Crush"] =
        [Event.create, Event.runBattery Battery.BigCrush, Event.destroy, Event.exitWith 0])) :=
  ⟨by decide, dispatch_exact_match ["stdin2testu01", "Crush"] (by decide)⟩

/-- C4: with fewer than 2 process arguments, `main` prints the usage message
(which names all three suite identifiers), exits with status 1, and runs no
battery. -/
theorem usage_on_missing_argument (argv : List String) (h : argv.length < 2) :
    mainTrace argv = [Event.create, Event.print usageMessage, Event.exitWith 1] ∧
    (mainTrace argv).filter isBatteryEvent = [] ∧
    (∃ a b : String, usageMessage = a ++ (TU_S ++ b)) ∧
    (∃ a b : String, usageMessage = a ++ (TU_C ++ b)) ∧
    (∃ a b : String, usageMessage = a ++ (TU_B ++ b)) := by
  have h1 : mainTrace argv = [Event.create, Event.print usageMessage, Event.exitWith 1] := by
    simp [mainTrace, h]
  refine ⟨h1, by rw [h1]; rfl, ?_, ?_, ?_⟩
  · exact ⟨"[ERROR] Specify test suite: '", "', 'Crush' or 'BigCrush'\n", by decide⟩
  · exact ⟨"[ERROR] Specify test suite: 'SmallCrush', '", "' or 'BigCrush'\n", by decide⟩
  · exact ⟨"[ERROR] Specify test suite: 'SmallCrush', 'Crush' or '", "'\n", by decide⟩

/-- Witness for C4 with only the program name supplied. -/
theorem usage_on_missing_argument_witness :
    (["stdin2testu01"] : List String).length < 2 ∧
    (mainTrace ["stdin2testu01"] = [Event.create, Event.print usageMessage, Event.exitWith 1] ∧
     (mainTrace ["stdin2testu01"]).filter isBatteryEvent = [] ∧
     (∃ a b : String, usageMessage = a ++ (TU_S ++ b)) ∧
     (∃ a b : String, usageMessage = a ++ (TU_C ++ b)) ∧
     (∃ a b : String, usageMessage = a ++ (TU_B ++ b))) :=
  ⟨by decide, usage_on_missing_argument ["stdin2testu01"] (by decide)⟩

/-- C5: any second argument that is not exactly one of the three suite names
(case matters) makes `main` print the unknown-specification message — which
embeds the offending argument literally — exit with status 1, and run no
battery. -/
theorem unknown_specification_rejected (argv : List String) (h2 : 2 ≤ argv.length)
    (hS : argv.getD 1 "" ≠ TU_S) (hC : argv.getD 1 "" ≠ TU_C)
    (hB : argv.getD 1 "" ≠ TU_B) :
    mainTrace argv =
      [Event.create, Event.print (unknownMessage (argv.getD 1 "")), Event.exitWith 1] ∧
    (mainTrace argv).filter isBatteryEvent = [] ∧
    (∃ a b : String, unknownMessage (argv.getD 1 "") = a ++ (argv.getD 1 "" ++ b)) := by
  have hlen : ¬ argv.length < 2 := by omega
  have h1 : mainTrace argv =
      [Event.create, Event.print (unknownMessage (argv.getD 1 "")), Event.exitWith 1] := by
    simp only [List.getD_eq_getElem?_getD] at hS hC hB
    simp [mainTrace, hlen, hS, hC, hB]
  exact ⟨h1, by rw [h1]; rfl, ⟨"[ERROR] Unknown specification: '", "'\n", rfl⟩⟩

/-- Witness for C5 with the wrong-case argument "bigcrush". -/
theorem unknown_specification_rejected_witness :
    2 ≤ (["stdin2testu01", "bigcrush"] : List String).length ∧
    (mainTrace ["stdin2testu01", "bigcrush"] =
      [Event.create, Event.print (unknownMessage "bigcrush"), Event.exitWith 1] ∧
     (mainTrace ["stdin2testu01", "bigcrush"]).filter isBatteryEvent = [] ∧
     (∃ a b : String, unknownMessage "bigcrush" = a ++ ("bigcrush" ++ b))) :=
  ⟨by decide,
    unknown_specification_rejected ["stdin2testu01", "bigcrush"]
      (by decide) (by decide) (by decide) (by decide)⟩

/-- C10: the adapter-creating event opens every trace, before any argument
validation; a trace that runs no battery ends in an error exit of status 1
with the adapter never destroyed, and destruction happens exactly on the
battery path, which ends with exit status 0. -/
theorem create_first_destroy_on_success_only (argv : List String) :
    (mainTrace argv).head? = some Event.create ∧
    ((mainTrace argv).filter isBatteryEvent = [] →
      Event.destroy ∉ mainTrace argv ∧
      (mainTrace argv).getLast? = some (Event.exitWith 1)) ∧
    (Event.destroy ∈ mainTrace argv →
      (mainTrace argv).getLast? = some (Event.exitWith 0) ∧
      (mainTrace argv).filter isBatteryEvent ≠ []) := by
  by_cases hlen : argv.length < 2
  · simp [mainTrace, hlen, isBatteryEvent]
  · by_cases hS : argv.getD 1 "" = TU_S
    · simp only [List.getD_eq_getElem?_getD] at hS
      simp [mainTrace, hlen, hS, isBatteryEvent]
    · by_cases hC : argv.getD 1 "" = TU_C
      · have hCS : (TU_C = TU_S) = False := by simp [TU_C, TU_S]
        simp only [List.getD_eq_getElem?_getD] at hC
        simp [mainTrace, hlen, hC, hCS, isBatteryEvent]
      · by_cases hB : argv.getD 1 "" = TU_B
        · have hBS : (TU_B = TU_S) = False := by simp [TU_B, TU_S]
          have hBC : (TU_B = TU_C) = False := by simp [TU_B, TU_C]
          simp only [List.getD_eq_getElem?_getD] at hB
          simp [mainTrace, hlen, hB, hBS, hBC, isBatteryEvent]
        · simp only [List.getD_eq_getElem?_getD] at hS hC hB
          simp [mainTrace, hlen, hS, hC, hB, isBatteryEvent]
